import Mathlib

/-!
Verification development for the alexandria knowledge-base manager
(render pipeline in `render.go`, incremental index and query engine in
`bleve.go`).  The Go code is shallowly embedded: Go strings are Lean
`String`s (query translation additionally works on `List Char`, the byte
view of the ASCII-only inputs involved), the file system and the bleve
index are an explicit `Env` record threaded through the functions, and
external processes are recorded in an execution log instead of being run.

Go `error` values are compared by identity against the sentinel
`ErrNoSuchScroll`, so the embedding keeps errors as an inductive type in
which a wrapped error (`errors.Wrap`) is distinct from the sentinel it
wraps, exactly as pointer identity distinguishes them in Go.
-/

/-- Go `error` values as used by the repository: `nil`, the sentinel
`ErrNoSuchScroll` (compared by identity), the "file does not exist" class
recognised by `os.IsNotExist`, errors produced by `errors.Wrap`/`Wrapf`
(fresh values, never identical to the sentinel), and any other error. -/
inductive GoErr where
  | nil
  | errNoSuchScroll
  | notExist
  | wrapped (msg : String) (cause : GoErr)
  | mk (msg : String)
  deriving DecidableEq, Repr

/-- `errors.Wrap` from github.com/pkg/errors: returns nil on nil, otherwise
a fresh error value holding the cause. -/
def GoErr.wrap (e : GoErr) (msg : String) : GoErr :=
  match e with
  | .nil => .nil
  | e => .wrapped msg e

/-- `errors.Wrapf`; the formatted message is abstracted to its format string. -/
def GoErr.wrapf (e : GoErr) (msg : String) : GoErr :=
  GoErr.wrap e msg

/-- External process invocations performed by the render pipeline
(`exec.Command(...).CombinedOutput` / `.Run`). -/
inductive GoCmd where
  | xelatex (id : String)
  | convert (id : String)
  deriving DecidableEq, Repr

/-- The `Scroll` record as used by the files under verification: the
identifier, the type (selects templates) and the content.  The remaining
auxiliary text fields play no role in the verified code paths. -/
structure Scroll where
  id : String
  typ : String
  content : String
  deriving DecidableEq, Repr

/-- A directory entry of the knowledge directory as seen by
`ioutil.ReadDir`: name, modification time, and content (`none` when the
file exists but reading it fails). -/
structure KFile where
  name : String
  modTime : Int
  content : Option String
  deriving DecidableEq, Repr

/-- The `Results` record returned by `findScrolls`. -/
structure Results where
  IDs : List Scroll
  Total : Nat
  deriving DecidableEq, Repr

/-- The world the embedded functions act on: the knowledge directory, the
template directory, the bleve index (existence flag plus entry ids), the
`index_updated` sentinel file (its modification time, `none` when the file
is absent), temp and cache files, the log of external commands run, and the
outcomes of the external collaborators (process results, the `isUpToDate`
policy, the parser, per-document `batch.Index` outcomes, and the raw bleve
search answer: hit ids plus raw total). -/
structure Env where
  knowledgeFiles : List KFile
  templates : List (String × String)
  indexExists : Bool
  indexEntries : List String
  markerTime : Option Int
  tempFiles : List String
  cacheFiles : List String
  executed : List GoCmd
  xelatexResult : String → GoErr
  convertResult : String → GoErr
  upToDate : String → Bool
  parseDoc : String → String → Scroll
  indexDocOk : String → Bool
  search : List Char → List String × Nat

/-- Modelled from the spec: `readScroll` reads the document's source text
from `KnowledgeDirectory/<id>.tex`; an absent file yields the error class
recognised by `os.IsNotExist`, an unreadable file a generic error. -/
def readScroll (env : Env) (id : String) : Except GoErr String :=
  match env.knowledgeFiles.find? (fun f => f.name == id ++ ".tex") with
  | none => .error .notExist
  | some f =>
    match f.content with
    | none => .error (.mk "read scroll")
    | some c => .ok c

/-- Modelled from the spec: the free function `readTemplate` loads a
template file by name, failing when the template is missing.  (Named
`readTemplateFile` here because the method
`ErrTemplateReader.readTemplate` below would otherwise shadow it.) -/
def readTemplateFile (env : Env) (name : String) : String × GoErr :=
  match env.templates.find? (fun t => t.1 == name) with
  | some t => (t.2, .nil)
  | none => ("", .mk ("no template " ++ name))

/-- Modelled from the spec: `writeTemp` writes the assembled LaTeX source
for `id` into the temporary working area. -/
def writeTemp (env : Env) (id : String) (_doc : String) : GoErr × Env :=
  (.nil, { env with tempFiles := env.tempFiles ++ [id ++ ".tex"] })

/-- `removeFromIndex` (bleve.go): opens the existing index and deletes the
entry for `id`; fails when the index cannot be opened. -/
def removeFromIndex (env : Env) (id : String) : GoErr × Env :=
  if env.indexExists then
    (.nil, { env with indexEntries := env.indexEntries.erase id })
  else
    (.mk "open index", env)

/-- The `errTemplateReader` accumulator (render.go): a document buffer plus
a first-error slot. -/
structure ErrTemplateReader where
  doc : String
  err : GoErr
  deriving DecidableEq, Repr

/-- `(*errTemplateReader).readTemplate` — a POINTER receiver in the source,
so its state updates are observed by the caller and are threaded here. -/
def ErrTemplateReader.readTemplate (e : ErrTemplateReader) (env : Env)
    (name : String) : ErrTemplateReader :=
  if e.err ≠ .nil then e
  else
    let tmp := readTemplateFile env name
    { doc := e.doc ++ tmp.1, err := (tmp.2).wrapf ("read template " ++ name) }

/-- `xelatexImagemagickRenderer` (render.go): holds only the terminal error
slot.  Every one of its stage methods has a VALUE receiver in the source. -/
structure XelatexImagemagickRenderer where
  error : GoErr
  deriving DecidableEq, Repr

/-- Stage 1, `scrollToLatex`: reads the scroll source; if the file is
absent, removes the stale index entry and records `ErrNoSuchScroll`;
otherwise assembles header/type-header/content/type-footer/footer and
writes the result to the temp area.  The returned receiver is the copy the
value-receiver method mutated; callers of the Go code never see it. -/
def XelatexImagemagickRenderer.scrollToLatex (x : XelatexImagemagickRenderer)
    (id : String) (env : Env) : XelatexImagemagickRenderer × Env :=
  match readScroll env id with
  | .error e =>
    if e = .notExist then
      -- err = removeFromIndex(id); a failure is only logged
      let r := removeFromIndex env id
      ({ x with error := .errNoSuchScroll }, r.2)
    else
      ({ x with error := e }, env)
  | .ok scrollText =>
    let scroll := env.parseDoc id scrollText
    let e0 : ErrTemplateReader := ⟨"", .nil⟩
    let e1 := e0.readTemplate env "header"
    let e2 := e1.readTemplate env (scroll.typ ++ "_header")
    let e3 : ErrTemplateReader := { e2 with doc := e2.doc ++ scroll.content }
    let e4 := e3.readTemplate env (scroll.typ ++ "_footer")
    let e5 := e4.readTemplate env "footer"
    if e5.err ≠ .nil then
      ({ x with error := e5.err.wrapf ("producing latex file for scroll " ++ id) }, env)
    else
      let w := writeTemp env id e5.doc
      ({ x with error := w.1.wrapf ("writing latex file " ++ id ++ ".tex to temporary directory") }, w.2)

/-- Stage 2, `latexToPdf`: no-op if the receiver copy already holds an
error, otherwise runs xelatex and records its outcome (on success the PDF
appears in the temp area). -/
def XelatexImagemagickRenderer.latexToPdf (x : XelatexImagemagickRenderer)
    (id : String) (env : Env) : XelatexImagemagickRenderer × Env :=
  if x.error ≠ .nil then (x, env)
  else
    let res := env.xelatexResult id
    let env1 := { env with executed := env.executed ++ [GoCmd.xelatex id] }
    let env2 :=
      if res = .nil then { env1 with tempFiles := env1.tempFiles ++ [id ++ ".pdf"] }
      else env1
    ({ x with error := res.wrapf "XeLaTeX build" }, env2)

/-- Stage 3, `pdfToPng`: no-op if the receiver copy already holds an error,
otherwise runs ImageMagick convert, writing the cache artifact on success;
the raw `Run()` error is stored unwrapped. -/
def XelatexImagemagickRenderer.pdfToPng (x : XelatexImagemagickRenderer)
    (id : String) (env : Env) : XelatexImagemagickRenderer × Env :=
  if x.error ≠ .nil then (x, env)
  else
    let res := env.convertResult id
    let env1 := { env with executed := env.executed ++ [GoCmd.convert id] }
    let env2 :=
      if res = .nil then { env1 with cacheFiles := env1.cacheFiles ++ [id ++ ".png"] }
      else env1
    ({ x with error := res }, env2)

/-- Stage 4, `deleteTemporaryFiles`: removes every `TempDirectory/<id>.*`
file; it inspects no error slot and failures are only logged. -/
def XelatexImagemagickRenderer.deleteTemporaryFiles
    (_x : XelatexImagemagickRenderer) (id : String) (env : Env) : Env :=
  { env with
    tempFiles := env.tempFiles.filter (fun f => ¬ ((id ++ ".").data).isPrefixOf f.data) }

/-- `renderScroll` (render.go) instantiated with the
`xelatexImagemagickRenderer` backend, the only one in the repository.  The
interface value holds the struct `x` by value; each stage method has a
value receiver, so the mutated copies the stages return are discarded and
`renderer.err()` reads the original, untouched `x.error` — exactly the Go
semantics of calling value-receiver methods through an interface. -/
def renderScrollX (x : XelatexImagemagickRenderer) (id : String) (env : Env) :
    GoErr × Env :=
  if env.upToDate id then (.nil, env)
  else
    let s1 := x.scrollToLatex id env
    let s2 := x.latexToPdf id s1.2
    let s3 := x.pdfToPng id s2.2
    let env4 := x.deleteTemporaryFiles id s3.2
    (x.error.wrap "rendering", env4)

/-- `renderListOfScrolls` (render.go), parametric in the per-identifier
render outcome `render id env = renderScroll(id, renderer)`: skip and
continue on the sentinel `ErrNoSuchScroll`, `log.Panic` (modelled as
`none`) on any other error, count successes. -/
def renderListOfScrollsP (render : String → Env → GoErr × Env) :
    List Scroll → Env → Option (Nat × Env)
  | [], env => some (0, env)
  | s :: rest, env =>
    let p := render s.id env
    if p.1 ≠ .nil then
      if p.1 = .errNoSuchScroll then renderListOfScrollsP render rest p.2
      else none
    else
      match renderListOfScrollsP render rest p.2 with
      | some q => some (q.1 + 1, q.2)
      | none => none

/-!
Query translation (`translatePlusMinusTildePrefixes`, bleve.go).  Query
strings are modelled as their character lists; for the ASCII prefix
characters involved, Go's byte indexing `word[0]` / `word[1:]` coincides
with head/tail on the character list.
-/

/-- The ASCII white-space characters recognised by Go's
`strings.TrimSpace` (the model covers ASCII input). -/
def isGoSpace (c : Char) : Bool :=
  c = ' ' || c = '\t' || c = '\n' || c = Char.ofNat 11 || c = Char.ofNat 12 || c = '\r'

/-- Go `strings.Split(s, " ")`: splitting on every single space, keeping
empty fields; `Split("", " ") = [""]`. -/
def goSplitOnSpace : List Char → List (List Char)
  | [] => [[]]
  | c :: rest =>
    let r := goSplitOnSpace rest
    if c = ' ' then [] :: r
    else
      match r with
      | [] => [[c]]
      | w :: ws => (c :: w) :: ws

/-- Go `strings.TrimSpace` on the character-list view. -/
def goTrimSpace (s : List Char) : List Char :=
  ((s.dropWhile isGoSpace).reverse.dropWhile isGoSpace).reverse

/-- The loop body of `translatePlusMinusTildePrefixes` (bleve.go), with the
accumulated `newQueryString`.  Indexing `word[0]` on an empty `word`
panics in Go ("index out of range"), modelled as `none`. -/
def translateLoop : List (List Char) → List Char → Option (List Char)
  | [], acc => some acc
  | tmp :: rest, acc =>
    match goTrimSpace tmp with
    | [] => none
    | c :: cs =>
      if c = '-' ∨ c = '+' then translateLoop rest (acc ++ ' ' :: c :: cs)
      else if c = '~' then translateLoop rest (acc ++ ' ' :: cs)
      else translateLoop rest (acc ++ ' ' :: '+' :: c :: cs)

/-- `translatePlusMinusTildePrefixes` (bleve.go): split the query on
spaces, classify each term by its first character, and drop the leading
space of the rebuilt string (`newQueryString[1:]`).  `none` models a Go
panic. -/
def translatePlusMinusTildePrefixes (queryString : List Char) : Option (List Char) :=
  (translateLoop (goSplitOnSpace queryString) []).map (List.drop 1)

/-- Following the spec's words, for comparison with the code: each term is
classified by its first character — `+`/`-` pass through unchanged, `~`
strips the prefix, anything else receives an implicit `+`. -/
def specClassifyTerm (w : List Char) : List Char :=
  match w with
  | [] => []
  | c :: rest =>
    if c = '+' ∨ c = '-' then c :: rest
    else if c = '~' then rest
    else '+' :: c :: rest

/-- Following the spec's words: the space-separated rebuilt query. -/
def specJoinSpace : List (List Char) → List Char
  | [] => []
  | [w] => w
  | w :: ws => w ++ ' ' :: specJoinSpace ws

/-!
The query engine (`searchBleve`, `loadMatchingScrolls`, `findScrolls`,
bleve.go).  `loadMatchingScrolls` builds its result with `append`, and
`searchBleve` reslices it to `scrolls[:len(searchResults.Hits)]`; when
documents failed to load that reslice runs past the length into the
slice's spare capacity (yielding zero-valued `Scroll`s) or past the
capacity (a Go panic), so the model tracks the capacity produced by Go's
append growth (capacity doubles, starting at 1).
-/

/-- The zero value `Scroll{}`. -/
def zeroScroll : Scroll := ⟨"", "", ""⟩

/-- Go `append` on a slice tracked as (elements, capacity): growing
doubles the capacity, starting at 1. -/
def goSliceAppend (l : List Scroll × Nat) (s : Scroll) : List Scroll × Nat :=
  if l.1.length < l.2 then (l.1 ++ [s], l.2)
  else (l.1 ++ [s], if l.2 = 0 then 1 else 2 * l.2)

/-- Go reslicing `xs[:n]`: within the length it truncates, between length
and capacity it exposes zero values, past the capacity it panics
(`none`). -/
def goReslice (xs : List Scroll) (cap n : Nat) : Option (List Scroll) :=
  if n ≤ xs.length then some (xs.take n)
  else if n ≤ cap then some (xs ++ List.replicate (n - xs.length) zeroScroll)
  else none

/-- `loadAndParseScrollContentByID` (bleve.go): read the live scroll text
and parse it. -/
def loadAndParseScrollContentByID (env : Env) (id : String) : Except GoErr Scroll :=
  match readScroll env id with
  | .error e => .error e
  | .ok content => .ok (env.parseDoc id content)

/-- `loadMatchingScrolls` (bleve.go): re-load and re-parse each hit's live
document, skipping (with a log) hits that fail to load; the capacity of
the appended slice is returned alongside. -/
def loadMatchingScrolls (env : Env) (hits : List String) : List Scroll × Nat :=
  hits.foldl
    (fun acc id =>
      match loadAndParseScrollContentByID env id with
      | .error _ => acc
      | .ok scroll => goSliceAppend acc scroll)
    ([], 0)

/-- `searchBleve` (bleve.go): open the index (an open failure is returned),
translate the query (a panic in the translation propagates, `none`), run
the structured query against the index (abstracted by `Env.search`, which
answers with the hit ids and the raw total), load the matching scrolls and
reslice to the raw hit count. -/
def searchBleve (env : Env) (queryString : String) :
    Option (Except GoErr (Results × Env)) :=
  if !env.indexExists then some (.error (.mk "open index"))
  else
    match translatePlusMinusTildePrefixes queryString.data with
    | none => none
    | some newQ =>
      let hits := env.search newQ
      let loaded := loadMatchingScrolls env hits.1
      match goReslice loaded.1 loaded.2 hits.1.length with
      | none => none
      | some ids => some (.ok (⟨ids, hits.2⟩, env))

/-- `findScrolls` (bleve.go): search, render every hit with a zero-valued
`xelatexImagemagickRenderer`, and report the render tally as the total.
The loop that re-checks each hit's file with `os.Stat` builds a local
slice that the function never uses (dead code), so it is not modelled;
`none` models a panic (from the translation, the reslice, or
`renderListOfScrolls`). -/
def findScrolls (env : Env) (query : String) :
    Option (Except GoErr (Results × Env)) :=
  match searchBleve env query with
  | none => none
  | some (.error e) => some (.error e)
  | some (.ok (results, env1)) =>
    match renderListOfScrollsP (fun id e => renderScrollX ⟨.nil⟩ id e) results.IDs env1 with
    | none => none
    | some (n, env2) => some (.ok ({ results with Total := n }, env2))

/-- Whether `KnowledgeDirectory/<id>.tex` exists, as tested by the
`os.Stat` freshness check in `findScrolls`. -/
def scrollFileExists (env : Env) (id : String) : Bool :=
  env.knowledgeFiles.any (fun f => f.name == id ++ ".tex")

/-!
Incremental index update (`updateIndex`, bleve.go).  The bleve index
handle is abstract; what the model records is which documents the single
batch stages, the order of the marker/scan/commit effects (as an event
trace), and the environment left behind.
-/

/-- Modelled from the spec: `getModTime` stats a file and returns its
modification time; per the comment in `updateIndex`, when the stat fails
the returned time is 0, i.e. 1970-01-01, together with the error. -/
def getModTime (markerTime : Option Int) : Int × GoErr :=
  match markerTime with
  | some t => (t, .nil)
  | none => (0, .mk "stat index_updated")

/-- `touch` (bleve.go) via `os.Chtimes`: sets the file's timestamps to
now, but fails — without creating the file — when it does not exist. -/
def touch (env : Env) (now : Int) : GoErr × Env :=
  match env.markerTime with
  | some _ => (.nil, { env with markerTime := some now })
  | none => (.mk "chtimes: no such file or directory", env)

/-- `strings.TrimSuffix(name, ".tex")`. -/
def trimSuffixTex (name : String) : String :=
  if (".tex".data).isSuffixOf name.data then
    String.mk (name.data.take (name.data.length - 4))
  else name

/-- `isOlderThan` (bleve.go): whether the file was last modified strictly
before the index-update time.  (The model stats every enumerated file
successfully; the error branch, which also skips, is a race with outside
deletion.) -/
def isOlderThan (f : KFile) (indexUpdateTime : Int) : Bool :=
  f.modTime < indexUpdateTime

/-- The cutoff `updateIndex` uses: the marker's old modification time,
defaulting to 0 when the marker cannot be read. -/
def markerCutoff (env : Env) : Int :=
  (getModTime env.markerTime).1

/-- `loadAndParseScrollContent` (bleve.go): read the enumerated file and
parse it; the read error is propagated to the caller, which skips the
document. -/
def loadAndParseScrollContent (env : Env) (id : String) (f : KFile) :
    Except GoErr Scroll :=
  match f.content with
  | none => .error (.mk ("read " ++ f.name))
  | some c => .ok (env.parseDoc id c)

/-- Observable effects of one `updateIndex` run, in order. -/
inductive IdxEvent where
  | readMarker (cutoff : Int)
  | touchMarker (ok : Bool)
  | enumerate
  | indexDoc (id : String)
  | skipDoc (name : String)
  | commitBatch
  deriving DecidableEq, Repr

/-- The outcome of `updateIndex`: the documents staged into the single
batch, the event trace, and the resulting environment. -/
structure UpdateResult where
  staged : List (String × Scroll)
  events : List IdxEvent
  envOut : Env

/-- The per-file step of `updateIndex`'s loop: skip the document when the
index pre-existed and the file is older than the cutoff; otherwise load
and parse it (a failure is logged and the document skipped) and stage it
into the batch (a `batch.Index` failure is logged, leaving the document
out). -/
def updateIndexStep (env : Env) (isNewIndex : Bool) (cutoff : Int)
    (acc : List (String × Scroll) × List IdxEvent) (f : KFile) :
    List (String × Scroll) × List IdxEvent :=
  if !isNewIndex && isOlderThan f cutoff then
    (acc.1, acc.2 ++ [.skipDoc f.name])
  else
    let id := trimSuffixTex f.name
    match loadAndParseScrollContent env id f with
    | .error _ => (acc.1, acc.2 ++ [.skipDoc f.name])
    | .ok scroll =>
      if env.indexDocOk id then (acc.1 ++ [(id, scroll)], acc.2 ++ [.indexDoc id])
      else (acc.1, acc.2 ++ [.skipDoc f.name])

/-- `updateIndex` (bleve.go): open the index or create a fresh one (the
index then exists either way), read the freshness marker — keeping its old
value as the skip cutoff, 0 when unreadable — touch the marker to now
(`recordIndexUpdateStart`; a failure is only logged), enumerate the
knowledge directory, stage every eligible document into one batch, and
commit that batch once at the end. -/
def updateIndex (env : Env) (now : Int) : UpdateResult :=
  let isNewIndex := !env.indexExists
  let env0 := { env with indexExists := true }
  let cutoff := markerCutoff env0
  let t := touch env0 now
  let env1 := t.2
  let run := env1.knowledgeFiles.foldl (updateIndexStep env1 isNewIndex cutoff) ([], [])
  { staged := run.1
    events := .readMarker cutoff :: .touchMarker (t.1 = .nil) :: .enumerate ::
      run.2 ++ [.commitBatch]
    envOut := { env1 with
      indexEntries := run.1.foldl
        (fun l p => if p.1 ∈ l then l else l ++ [p.1]) env1.indexEntries } }

/-- The document `updateIndex` would stage for an enumerated file, were it
eligible: `none` when the file cannot be read or its `batch.Index` call
fails. -/
def docOf (env : Env) (f : KFile) : Option (String × Scroll) :=
  match f.content with
  | none => none
  | some c =>
    if env.indexDocOk (trimSuffixTex f.name) then
      some (trimSuffixTex f.name, env.parseDoc (trimSuffixTex f.name) c)
    else none

/-!
Concrete environments used to evaluate the embedded code on specific
inputs.
-/

/-- A small well-behaved world: index present, empty library, all external
collaborators succeed, nothing cached. -/
def baseEnv : Env where
  knowledgeFiles := []
  templates := []
  indexExists := true
  indexEntries := []
  markerTime := none
  tempFiles := []
  cacheFiles := []
  executed := []
  xelatexResult := fun _ => .nil
  convertResult := fun _ => .nil
  upToDate := fun _ => false
  parseDoc := fun id c => ⟨id, "", c⟩
  indexDocOk := fun _ => true
  search := fun _ => ([], 0)

/-- A world in which scroll `a` has been deleted from the knowledge
directory but is still present in the index, and its artifact is not up to
date. -/
def envNoScroll : Env :=
  { baseEnv with indexEntries := ["a"] }

/-- A world in which every artifact is already up to date. -/
def envUpToDate : Env :=
  { baseEnv with upToDate := fun _ => true }

/-- A world for the query engine: scrolls `a`, `b`, `c` exist on disk and
are up to date, but the index still answers a query with four hits
`a`, `b`, `c`, `d` — scroll `d` has been deleted. -/
def envStaleHit : Env :=
  { baseEnv with
    knowledgeFiles :=
      [⟨"a.tex", 0, some "A"⟩, ⟨"b.tex", 0, some "B"⟩, ⟨"c.tex", 0, some "C"⟩]
    upToDate := fun _ => true
    search := fun _ => (["a", "b", "c", "d"], 4) }

/-!
Claim theorems.
-/

/-- C1: the claim states that once stage 1 records an error, stages 2 and
3 no-op.  On the code this FAILS: the stage methods have value receivers,
so the `ErrNoSuchScroll` that `scrollToLatex` records in its receiver copy
is discarded, and `latexToPdf` and `pdfToPng` — whose own copies still
hold a nil error — execute their external commands anyway.  At the
concrete input: scroll `a` is absent, stage 1 records the error, yet both
xelatex and convert are invoked. -/
theorem renderPipeline_stage2_runs_despite_stage1_error :
    ((⟨GoErr.nil⟩ : XelatexImagemagickRenderer).scrollToLatex "a" envNoScroll).1.error
      = GoErr.errNoSuchScroll
    ∧ GoCmd.xelatex "a" ∈ (renderScrollX ⟨GoErr.nil⟩ "a" envNoScroll).2.executed
    ∧ GoCmd.convert "a" ∈ (renderScrollX ⟨GoErr.nil⟩ "a" envNoScroll).2.executed := by
  refine ⟨rfl, ?_, ?_⟩ <;> decide

/-- C2: the claim states that rendering a scroll with no backing file
removes its index entry and returns `ErrNoSuchScroll`.  The removal does
happen, but `renderScroll` returns nil (success): the sentinel recorded by
`scrollToLatex` lives only in a discarded value-receiver copy, so
`renderer.err()` reads the original nil error — the missing-document
condition is never reported to the caller. -/
theorem renderScroll_missing_file_returns_nil :
    (renderScrollX ⟨GoErr.nil⟩ "a" envNoScroll).1 = GoErr.nil
    ∧ "a" ∉ (renderScrollX ⟨GoErr.nil⟩ "a" envNoScroll).2.indexEntries := by
  exact ⟨rfl, by decide⟩

/-- C6: the claim states the translation must not crash on an empty term.
On the code this FAILS for empty terms: `word[0]` panics on the empty
query and on two consecutive spaces (modelled as `none`), while terms
consisting solely of a leading `+`, `-` or `~` do translate. -/
theorem translate_panics_on_empty_term :
    translatePlusMinusTildePrefixes "".data = none
    ∧ translatePlusMinusTildePrefixes "a  b".data = none
    ∧ translatePlusMinusTildePrefixes "~".data = some "".data
    ∧ translatePlusMinusTildePrefixes "+".data = some "+".data
    ∧ translatePlusMinusTildePrefixes "-".data = some "-".data := by
  decide

/-- C8: when the cached artifact is already up to date, `renderScroll`
invokes no stage at all and returns success — the environment (command
log, file system, index) is returned unchanged together with a nil
error. -/
theorem renderScroll_upToDate_noop (x : XelatexImagemagickRenderer)
    (id : String) (env : Env) (h : env.upToDate id = true) :
    renderScrollX x id env = (GoErr.nil, env) := by
  simp [renderScrollX, h]

/-- Witness for C8 at a concrete up-to-date world. -/
theorem renderScroll_upToDate_noop_witness :
    envUpToDate.upToDate "a" = true
    ∧ renderScrollX ⟨GoErr.nil⟩ "a" envUpToDate = (GoErr.nil, envUpToDate) :=
  ⟨rfl, renderScroll_upToDate_noop ⟨GoErr.nil⟩ "a" envUpToDate rfl⟩

/-- C3: the scheduler `renderListOfScrolls`, over any per-identifier
render outcome (the renderer backend is a parameter of the Go function):
it skips identifiers whose render reports the sentinel `ErrNoSuchScroll`,
aborts the whole batch (`log.Panic`, modelled as `none`) as soon as any
other error is reported, and otherwise returns exactly the number of
identifiers whose render succeeded. -/
theorem renderListOfScrolls_classification (r : String → GoErr)
    (ids : List Scroll) (env : Env) :
    renderListOfScrollsP (fun i e => (r i, e)) ids env =
      if ∀ s ∈ ids, r s.id = GoErr.nil ∨ r s.id = GoErr.errNoSuchScroll then
        some (ids.countP (fun s => r s.id = GoErr.nil), env)
      else none := by
  induction ids generalizing env with
  | nil => simp [renderListOfScrollsP]
  | cons s rest ih =>
    simp only [renderListOfScrollsP, ih, List.forall_mem_cons, List.countP_cons]
    by_cases h1 : r s.id = GoErr.nil
    · by_cases h2 : ∀ x ∈ rest, r x.id = GoErr.nil ∨ r x.id = GoErr.errNoSuchScroll
      · simp [h1, if_pos h2, Nat.add_comm]
      · simp [h1, if_neg h2]
    · by_cases h2 : r s.id = GoErr.errNoSuchScroll
      · by_cases h3 : ∀ x ∈ rest, r x.id = GoErr.nil ∨ r x.id = GoErr.errNoSuchScroll
        · simp [h1, h2, if_pos h3]
        · simp [h1, h2, if_neg h3]
      · simp [h1, h2]

/-- C4: the claim states that `find()`'s reported total equals the number
of hits confirmed to still exist and that no hit without a backing file is
returned.  On the code the total FAILS: with four index hits of which
scroll `d` has been deleted, `findScrolls` reports `Total = 4` — the raw
hit count — because the tally `renderListOfScrolls` returns counts the
missing scroll as a success (its `ErrNoSuchScroll` is lost in the
discarded value-receiver copy), while only 3 of the hits still have a
source file.  The returned list also contains a zero-valued `Scroll` in
place of the dropped hit, an artifact of reslicing `scrolls` past its
length into its capacity. -/
theorem findScrolls_total_counts_deleted_hit :
    findScrolls envStaleHit "alpha" =
      some (Except.ok
        ({ IDs := [⟨"a", "", "A"⟩, ⟨"b", "", "B"⟩, ⟨"c", "", "C"⟩, ⟨"", "", ""⟩],
           Total := 4 }, envStaleHit))
    ∧ ["a", "b", "c", "d"].countP (fun h => scrollFileExists envStaleHit h) = 3 := by
  exact ⟨rfl, by decide⟩

/-!
Helper lemmas about `updateIndex`.
-/

/-- The staged batch a fold of `updateIndexStep` accumulates. -/
theorem foldl_updateIndexStep_staged (env : Env) (isNew : Bool) (cutoff : Int)
    (files : List KFile) (acc : List (String × Scroll)) (evs : List IdxEvent) :
    (files.foldl (updateIndexStep env isNew cutoff) (acc, evs)).1 =
      acc ++ files.filterMap (fun f =>
        if !isNew && isOlderThan f cutoff then none else docOf env f) := by
  induction files generalizing acc evs with
  | nil => simp
  | cons f fs ih =>
    simp only [List.foldl_cons, List.filterMap_cons]
    by_cases h : (!isNew && isOlderThan f cutoff) = true
    · simp [updateIndexStep, h, ih]
    · cases hc : f.content with
      | none =>
        simp [updateIndexStep, h, hc, ih, docOf, loadAndParseScrollContent]
      | some c =>
        by_cases hio : env.indexDocOk (trimSuffixTex f.name) = true
        · simp [updateIndexStep, h, hc, hio, ih, docOf, loadAndParseScrollContent]
        · simp [updateIndexStep, h, hc, hio, ih, docOf, loadAndParseScrollContent]

/-- One `updateIndexStep` never emits a commit event. -/
theorem updateIndexStep_no_commit (env : Env) (isNew : Bool) (cutoff : Int)
    (acc : List (String × Scroll) × List IdxEvent) (f : KFile)
    (h : IdxEvent.commitBatch ∉ acc.2) :
    IdxEvent.commitBatch ∉ (updateIndexStep env isNew cutoff acc f).2 := by
  unfold updateIndexStep
  by_cases hs : (!isNew && isOlderThan f cutoff) = true
  · simp [hs, h]
  · cases hc : f.content with
    | none => simp [hs, hc, h, loadAndParseScrollContent]
    | some c =>
      by_cases hio : env.indexDocOk (trimSuffixTex f.name) = true
      · simp [hs, hc, hio, h, loadAndParseScrollContent]
      · simp [hs, hc, hio, h, loadAndParseScrollContent]

/-- A fold of `updateIndexStep` never emits a commit event. -/
theorem foldl_updateIndexStep_no_commit (env : Env) (isNew : Bool) (cutoff : Int)
    (files : List KFile) (acc : List (String × Scroll)) (evs : List IdxEvent)
    (h : IdxEvent.commitBatch ∉ evs) :
    IdxEvent.commitBatch ∉ (files.foldl (updateIndexStep env isNew cutoff) (acc, evs)).2 := by
  induction files generalizing acc evs with
  | nil => exact h
  | cons f fs ih =>
    rw [List.foldl_cons]
    exact ih _ _ (updateIndexStep_no_commit env isNew cutoff (acc, evs) f h)

/-- `updateIndex` stages exactly the documents that are not skipped by the
freshness test (against the OLD marker value) and that load and index
successfully; a fresh index (`indexExists = false`) considers every
document. -/
theorem updateIndex_staged (env : Env) (now : Int) :
    (updateIndex env now).staged =
      env.knowledgeFiles.filterMap (fun f =>
        if env.indexExists && isOlderThan f (markerCutoff env) then none
        else docOf env f) := by
  cases hm : env.markerTime with
  | none =>
    simp only [updateIndex, touch, hm]
    rw [foldl_updateIndexStep_staged]
    simp only [Bool.not_not, List.nil_append, markerCutoff, getModTime, hm]
    rfl
  | some t =>
    simp only [updateIndex, touch, hm]
    rw [foldl_updateIndexStep_staged]
    simp only [Bool.not_not, List.nil_append, markerCutoff, getModTime, hm]
    rfl

/-- The batch is committed exactly once per `updateIndex` run. -/
theorem updateIndex_commit_once (env : Env) (now : Int) :
    (updateIndex env now).events.count IdxEvent.commitBatch = 1 := by
  have hnc := foldl_updateIndexStep_no_commit
    (touch { env with indexExists := true } now).2 (!env.indexExists)
    (markerCutoff { env with indexExists := true })
    (touch { env with indexExists := true } now).2.knowledgeFiles [] []
    (by simp)
  simp only [updateIndex]
  simp [List.count_cons, List.count_append, List.count_eq_zero.mpr hnc]

/-- The commit is the last event of an `updateIndex` run. -/
theorem updateIndex_commit_last (env : Env) (now : Int) :
    (updateIndex env now).events.getLast? = some IdxEvent.commitBatch := by
  simp only [updateIndex]
  exact List.getLast?_concat _

/-- C5: `updateIndex` stages exactly the documents that survive the
skip test — on a pre-existing index, those whose modification time is not
older than the stored marker; on a newly created index
(`indexExists = false`), every document — excepting documents whose
read/parse or `batch.Index` call fails, which are skipped (`docOf` is
`none`) without aborting the run; the single batch is committed exactly
once, at the very end. -/
theorem updateIndex_eligibility_single_commit (env : Env) (now : Int) :
    ((updateIndex env now).staged =
      env.knowledgeFiles.filterMap (fun f =>
        if env.indexExists && isOlderThan f (markerCutoff env) then none
        else docOf env f))
    ∧ (updateIndex env now).events.count IdxEvent.commitBatch = 1
    ∧ (updateIndex env now).events.getLast? = some IdxEvent.commitBatch :=
  ⟨updateIndex_staged env now, updateIndex_commit_once env now,
    updateIndex_commit_last env now⟩

/-- C9: in every `updateIndex` run the marker is read first and the run's
skip cutoff is that OLD value (0 — epoch — when the marker is unreadable),
the marker is then rewritten to the current time, and only after that is
the store enumerated and any document processed; the environment left
behind carries the marker at `now` (when the sentinel existed to be
touched). -/
theorem updateIndex_marker_read_then_touch (env : Env) (now : Int) :
    (updateIndex env now).events.take 3 =
      [IdxEvent.readMarker (markerCutoff env),
       IdxEvent.touchMarker env.markerTime.isSome,
       IdxEvent.enumerate]
    ∧ markerCutoff env = env.markerTime.getD 0
    ∧ (updateIndex env now).envOut.markerTime = env.markerTime.map (fun _ => now)
    ∧ (updateIndex env now).staged =
      env.knowledgeFiles.filterMap (fun f =>
        if env.indexExists && isOlderThan f (markerCutoff env) then none
        else docOf env f) := by
  refine ⟨?_, ?_, ?_, updateIndex_staged env now⟩ <;>
    cases hm : env.markerTime <;>
      simp [updateIndex, touch, markerCutoff, getModTime, hm]

/-- C10: touching the freshness marker never creates the sentinel file —
when it is absent `os.Chtimes` fails and the file system is unchanged —
the failure is only logged while the update run proceeds (it still
enumerates, and its cutoff is epoch 0), the marker is still absent
afterwards, and the next `updateIndex` run again reads a cutoff of 0 with
a failing touch. -/
theorem touch_never_creates_marker (env : Env) (now now2 : Int)
    (h : env.markerTime = none) :
    (touch env now).1 ≠ GoErr.nil
    ∧ (touch env now).2 = env
    ∧ (updateIndex env now).events.take 3 =
      [IdxEvent.readMarker 0, IdxEvent.touchMarker false, IdxEvent.enumerate]
    ∧ (updateIndex env now).envOut.markerTime = none
    ∧ (updateIndex (updateIndex env now).envOut now2).events.take 3 =
      [IdxEvent.readMarker 0, IdxEvent.touchMarker false, IdxEvent.enumerate] := by
  have take3 : ∀ (e : Env) (n : Int), e.markerTime = none →
      (updateIndex e n).events.take 3 =
        [IdxEvent.readMarker 0, IdxEvent.touchMarker false, IdxEvent.enumerate] := by
    intro e n he
    simp [updateIndex, touch, markerCutoff, getModTime, he]
  have h1 : (updateIndex env now).envOut.markerTime = none := by
    simp [updateIndex, touch, h]
  exact ⟨by simp [touch, h], by simp [touch, h], take3 env now h, h1, take3 _ now2 h1⟩

/-- Witness for C10 at a concrete world whose sentinel file is absent. -/
theorem touch_never_creates_marker_witness :
    (touch baseEnv 5).1 ≠ GoErr.nil
    ∧ (touch baseEnv 5).2 = baseEnv
    ∧ (updateIndex baseEnv 5).events.take 3 =
      [IdxEvent.readMarker 0, IdxEvent.touchMarker false, IdxEvent.enumerate]
    ∧ (updateIndex baseEnv 5).envOut.markerTime = none
    ∧ (updateIndex (updateIndex baseEnv 5).envOut 7).events.take 3 =
      [IdxEvent.readMarker 0, IdxEvent.touchMarker false, IdxEvent.enumerate] :=
  touch_never_creates_marker baseEnv 5 7 rfl

/-!
Helper lemmas about the query translation.
-/

/-- `strings.Split` never returns an empty list. -/
theorem goSplitOnSpace_ne_nil (s : List Char) : goSplitOnSpace s ≠ [] := by
  induction s with
  | nil => simp [goSplitOnSpace]
  | cons c rest ih =>
    simp only [goSplitOnSpace]
    by_cases hc : c = ' '
    · simp [hc]
    · simp only [hc, if_false]
      cases hr : goSplitOnSpace rest with
      | nil => simp
      | cons w ws => simp

/-- When every term is nonempty after trimming, the translation loop
succeeds and produces, for each term in order, a space followed by the
spec's classification of that term. -/
theorem translateLoop_ok (ws : List (List Char)) (acc : List Char)
    (h : ∀ t ∈ ws, goTrimSpace t ≠ []) :
    translateLoop ws acc =
      some (acc ++ (ws.map (fun t => ' ' :: specClassifyTerm (goTrimSpace t))).flatten) := by
  induction ws generalizing acc with
  | nil => simp [translateLoop]
  | cons t ts ih =>
    have ht : goTrimSpace t ≠ [] := h t (List.mem_cons_self t ts)
    have hts : ∀ u ∈ ts, goTrimSpace u ≠ [] := fun u hu => h u (List.mem_cons_of_mem t hu)
    cases hw : goTrimSpace t with
    | nil => exact absurd hw ht
    | cons c cs =>
      simp only [translateLoop, hw, List.map_cons, List.flatten_cons]
      by_cases hpm : c = '-' ∨ c = '+'
      · rw [if_pos hpm, ih _ hts]
        have : specClassifyTerm (c :: cs) = c :: cs := by
          simp [specClassifyTerm, if_pos (Or.symm hpm)]
        simp [this]
      · rw [if_neg hpm]
        by_cases htl : c = '~'
        · rw [if_pos htl, ih _ hts]
          have : specClassifyTerm (c :: cs) = cs := by
            simp [specClassifyTerm, if_neg (fun hc => hpm (Or.symm hc)), htl]
          simp [this]
        · rw [if_neg htl, ih _ hts]
          have : specClassifyTerm (c :: cs) = '+' :: c :: cs := by
            simp [specClassifyTerm, if_neg (fun hc => hpm (Or.symm hc)), htl]
          simp [this]

/-- Flattening space-prefixed chunks yields a space followed by the
space-separated join. -/
theorem flatten_space_chunks (g : List Char → List Char) (t : List Char)
    (ts : List (List Char)) :
    ((t :: ts).map (fun w => ' ' :: g w)).flatten = ' ' :: specJoinSpace ((t :: ts).map g) := by
  induction ts generalizing t with
  | nil => simp [specJoinSpace]
  | cons u us ih =>
    simp only [List.map_cons, List.flatten_cons] at ih ⊢
    rw [ih u]
    simp [specJoinSpace]

/-- C7: for a query all of whose space-separated terms are nonempty (after
trimming), the translation classifies each term exactly as the spec says —
`+`/`-` terms pass through unchanged, `~` terms lose the prefix, all other
terms gain an implicit `+` — and rebuilds the space-separated query. -/
theorem translate_classifies_each_term (q : List Char)
    (h : ∀ t ∈ goSplitOnSpace q, goTrimSpace t ≠ []) :
    translatePlusMinusTildePrefixes q =
      some (specJoinSpace
        ((goSplitOnSpace q).map (fun t => specClassifyTerm (goTrimSpace t)))) := by
  unfold translatePlusMinusTildePrefixes
  rw [translateLoop_ok _ _ h]
  cases hsp : goSplitOnSpace q with
  | nil => exact absurd hsp (goSplitOnSpace_ne_nil q)
  | cons t ts =>
    rw [flatten_space_chunks]
    simp

/-- Witness for C7: translating `"alpha -beta ~gamma"` yields
`"+alpha -beta gamma"`. -/
theorem translate_classifies_each_term_witness :
    translatePlusMinusTildePrefixes "alpha -beta ~gamma".data =
      some "+alpha -beta gamma".data := by
  rw [translate_classifies_each_term "alpha -beta ~gamma".data (by decide)]
  decide
